import Mathlib

/-!
Shallow embedding of the HGVS parser-explainer core
(`src/hgvs/parserexplainer.py`, `src/hgvs/parser.py`,
`src/hgvs/hgvsexplained.py`).

The grammar engine (`hgvs/generated/hgvs_grammar.py`, referenced by
`Parser.__init__` but not part of the four source files) is treated as an
opaque oracle `gp : String → Except ParseExc V`: it either returns an opaque
domain value or fails with an `HGVSParseError` whose first argument is a
message string.  Everything the explainer does with a failure goes through
that message, which is faithfully modelled here.

Python exceptions raised by the explainer code itself (as opposed to the
`HGVSParseError` it catches) are modelled with the `Except PyErr` monad;
general recursion is modelled with an explicit fuel parameter, with
`PyErr.outOfFuel` marking exhaustion of the recursion budget.
-/

/-- The payload of an `HGVSParseError`: `exc.args[0]`, a message string. -/
structure ParseExc where
  msg : String
  deriving DecidableEq, Repr

/-- Python-level exceptions that the explainer code can raise (other than the
`HGVSParseError` values it catches), plus the fuel marker of the embedding. -/
inductive PyErr where
  /-- `TypeError` raised by `raise exc( msg )` in `ParserExplainer.raise_exc`
  and in `Parser.parse_hgvs_variant_explain`: `exc` is an exception
  *instance*, so calling it raises `TypeError` and the computed message (and
  the original failure) are discarded. -/
  | typeErrorNotCallable
  /-- `TypeError` raised by `re.search("..'c', 'g', ..", exc)`: the second
  argument is the exception object, not a string. -/
  | typeErrorExpectedString
  /-- `IndexError` raised by `v[char_pos]` when the position is not an index
  of `v` (evaluated while formatting a log message). -/
  | indexError
  /-- An uncaught `HGVSParseError` (only on the non-explain `parse` path). -/
  | hgvsError (exc : ParseExc)
  /-- Marker of the embedding: the fuel for the general recursion ran out. -/
  | outOfFuel
  deriving DecidableEq, Repr

/-! ## Python string primitives -/

/-- Python slice `s[:n]` on a `str`. -/
def pyTake (n : Nat) (s : String) : String :=
  String.mk (s.data.take n)

/-- Python slice `s[n:]` on a `str`. -/
def pyDrop (n : Nat) (s : String) : String :=
  String.mk (s.data.drop n)

/-- Python `len` of a `str`. -/
def pyLen (s : String) : Nat :=
  s.data.length

/-- Whitespace characters stripped by Python `str.strip()` (ASCII subset;
the inputs of this system are ASCII HGVS strings). -/
def isPySpace (c : Char) : Bool :=
  c = (' ') || c = ('\t') || c = ('\n') || c = ('\r')
    || c = (Char.ofNat 11) || c = (Char.ofNat 12)

/-- Python `str.strip()` on the character list. -/
def stripChars (l : List Char) : List Char :=
  ((l.dropWhile isPySpace).reverse.dropWhile isPySpace).reverse

/-- Python `str.strip()`. -/
def pyStrip (s : String) : String :=
  String.mk (stripChars s.data)

/-! ## The failure-message scan

`ParserExplainer._explain` and `Parser.parse_hgvs_variant_explain` both run

  `re.search( "char (\d+): expected (.+)$", exc.args[0] )`.

The messages built by `Parser._expose_rule_functions` are single-line, so
the pattern matches at a position iff the literal `"char "` is followed by a
nonempty digit run, the literal `": expected "`, and at least one further
character reaching the end of the string; group 1 is the digit run (the
digits are followed by `':'`, so no backtracking can shorten the greedy run)
and group 2 is everything after `": expected "`.  `re.search` takes the
leftmost matching position. -/

/-- `int` of a digit run. -/
def digitsToNat (ds : List Char) : Nat :=
  ds.foldl (fun n c => n * 10 + (c.toNat - ('0').toNat)) 0

/-- Attempt to match `char (\d+): expected (.+)$` at the head of `cs`
(`cs` being a suffix of the whole message, so end-of-`cs` is `$`). -/
def matchCharExpectedAt (cs : List Char) : Option (Nat × String) :=
  if (("char ").data).isPrefixOf cs then
    let rest := cs.drop 5
    let ds := rest.takeWhile Char.isDigit
    if ds.isEmpty then none
    else
      let rest2 := rest.drop ds.length
      if ((": expected ").data).isPrefixOf rest2 then
        let tl := rest2.drop 11
        if tl.isEmpty then none else some (digitsToNat ds, String.mk tl)
      else none
  else none

/-- `re.search( "char (\d+): expected (.+)$", msg )`, returning
`(int(group(1)), group(2))` of the leftmost match. -/
def searchCharExpected : List Char → Option (Nat × String)
  | [] => none
  | c :: cs =>
    match matchCharExpectedAt (c :: cs) with
    | some r => some r
    | none => searchCharExpected cs

/-- `re.search( "one of .+ or a digit$", expected_str )` as a Boolean: some
position starts with `"one of "`, the string ends with `" or a digit"`, and
at least one character lies in between.  The recursion walks over start
positions; every suffix ends where the whole string ends, so the `$` test is
stable under the recursion. -/
def hasOneOfOrDigit : List Char → Bool
  | [] => false
  | c :: cs =>
    ((("one of ").data).isPrefixOf (c :: cs)
        && decide (19 ≤ (c :: cs).length)
        && ((" or a digit").data).isSuffixOf (c :: cs))
      || hasOneOfOrDigit cs

/-- `re.search( r"^(NM[^,]+), (NP.+)", v )` with its two groups.  The match
is anchored at the start; `[^,]+` cannot cross a comma and must be followed
by one, so it ends exactly at the first comma after `"NM"`; then `", "`,
`"NP"` and at least one further character must follow.  Group 1 is
`NM<run>`, group 2 is everything from `NP` on. -/
def dualAccessionSplit (cs : List Char) : Option (String × String) :=
  if (("NM").data).isPrefixOf cs then
    let after := cs.drop 2
    let run := after.takeWhile (fun c => !(c == (',')))
    if run.isEmpty then none
    else
      let rest := after.drop run.length
      if ((", ").data).isPrefixOf rest then
        let rest2 := rest.drop 2
        if (("NP").data).isPrefixOf rest2 && decide (3 ≤ rest2.length) then
          some (String.mk ((("NM").data) ++ run), String.mk rest2)
        else none
      else none
  else none

/-! ## The explanation tree (`hgvsexplained.py`) -/

/-- `HGVSExplained`: one parse attempt over one substring.  `parse_explain`
holds the children appended by `add_explained`; in the code a node is built
with an empty list and children are only ever appended on the failure path
of `parse_hgvs_variant_explain`, so the embedding constructs each node with
its final children list. -/
inductive HGVSExplained (V : Type) : Type where
  | mk (orig_var_string : String) (hgvs_obj : Option V)
      (hgvs_parser_exc : Option ParseExc) (hgvs_error_type : Option String)
      (parse_explain : List (HGVSExplained V))

namespace HGVSExplained

variable {V : Type}

/-- Field `orig_var_string`. -/
def orig_var_string : HGVSExplained V → String
  | .mk o _ _ _ _ => o

/-- Field `hgvs_obj`. -/
def hgvs_obj : HGVSExplained V → Option V
  | .mk _ o _ _ _ => o

/-- Field `hgvs_parser_exc`. -/
def hgvs_parser_exc : HGVSExplained V → Option ParseExc
  | .mk _ _ e _ _ => e

/-- Field `hgvs_error_type`. -/
def hgvs_error_type : HGVSExplained V → Option String
  | .mk _ _ _ t _ => t

/-- Field `parse_explain` (the ordered children). -/
def parse_explain : HGVSExplained V → List (HGVSExplained V)
  | .mk _ _ _ _ l => l

end HGVSExplained

/-! ## `ParserExplainer` (`parserexplainer.py`) -/

namespace ParserExplainer

variable {V : Type}

/-- One pass of `ParserExplainer._explain(v, exc)`.  `recur` stands for the
recursive calls `self.parse_hgvs_variant_explain( part )`; a raised Python
exception is an `Except.error` and propagates.  Branches, in source order:

* no match of `char (\d+): expected (.+)$` → `self.raise_exc(v, exc)`,
  which executes `raise exc( msg )`; `exc` is an `HGVSParseError` instance,
  so the call raises `TypeError` (the original failure is not re-raised);
* `expected_str == "EOF"` → split at `char_pos` (dropping the character at
  the failure offset), strip the suffix, recurse on both parts, return the
  two result nodes in order;
* `expected_str == "a digit"` → one leaf with error type `looks like a p.`
  (the protein-shape regex on the message feeds only a log line);
* `char_pos == 1` → one leaf with error type `invalid char`;
* `expected_str` matches `one of .+ or a digit$` → the log line evaluates
  `v[char_pos]`, an `IndexError` when `char_pos` is not an index of `v`;
  then either split at the `^(NM[^,]+), (NP.+)` match and recurse on both
  groups, or return one leaf with error type `contains invalid char`;
* otherwise → `re.search("'c', 'g', 'm', 'n', 'p', or 'r", exc)` passes the
  exception object where a string is required and raises `TypeError`, so
  the `missing residue type` leaf and the final `expected {s}` leaf of the
  source are unreachable. -/
def explainStep (recur : String → Except PyErr (HGVSExplained V))
    (v : String) (exc : ParseExc) : Except PyErr (List (HGVSExplained V)) :=
  match searchCharExpected exc.msg.data with
  | none => .error .typeErrorNotCallable
  | some (char_pos, expected_str) =>
    if expected_str = ("EOF") then
      match recur (pyTake char_pos v) with
      | .error e => .error e
      | .ok r1 =>
        match recur (pyStrip (pyDrop (char_pos + 1) v)) with
        | .error e => .error e
        | .ok r2 => .ok [r1, r2]
    else if expected_str = ("a digit") then
      .ok [.mk v none (some exc) (some ("looks like a p.")) []]
    else if char_pos = 1 then
      .ok [.mk v none (some exc) (some ("invalid char")) []]
    else if hasOneOfOrDigit expected_str.data then
      if char_pos < pyLen v then
        match dualAccessionSplit v.data with
        | some (coding, protein) =>
          match recur coding with
          | .error e => .error e
          | .ok r1 =>
            match recur protein with
            | .error e => .error e
            | .ok r2 => .ok [r1, r2]
        | none => .ok [.mk v none (some exc) (some ("contains invalid char")) []]
      else .error .indexError
    else .error .typeErrorExpectedString

/-- `ParserExplainer.parse_hgvs_variant_explain(v)` with explicit fuel for
the mutual recursion with `_explain`: try the grammar oracle `gp`; on
success return a leaf with `hgvs_obj` set; on an `HGVSParseError` build the
root node (error type `TBD`), run `_explain` and append its result list as
the children. -/
def parseExplainFuel (gp : String → Except ParseExc V) :
    Nat → String → Except PyErr (HGVSExplained V)
  | 0, _ => .error .outOfFuel
  | n + 1, v =>
    match gp v with
    | .ok hgvs => .ok (.mk v (some hgvs) none none [])
    | .error exc =>
      match explainStep (parseExplainFuel gp n) v exc with
      | .error e => .error e
      | .ok lst => .ok (.mk v none (some exc) (some ("TBD")) lst)

/-- `ParserExplainer.parse_hgvs_variant_explain(v)`: the fuel
`pyLen v + 1` is one more than the input length, enough for any recursion
that strictly shrinks its string at each level; `PyErr.outOfFuel` marks the
runs in which the Python original would recurse without bound. -/
def parse_hgvs_variant_explain (gp : String → Except ParseExc V)
    (v : String) : Except PyErr (HGVSExplained V) :=
  parseExplainFuel gp (pyLen v + 1) v

end ParserExplainer

/-! ## `Parser` (`parser.py`) -/

namespace Parser

variable {V : Type}

/-- `Parser.parse_hgvs_variant_explain(v)` with explicit fuel.  On success
it returns the parsed value; on an `HGVSParseError`:

* an unstructured message reaches `raise exc( msg )`, a `TypeError` as in
  `ParserExplainer.raise_exc`;
* `expected_str == "EOF"` recurses through `self.parse(part, explain=True)`
  on both parts (binding `v1`/`v2`, used only for printing) and then falls
  off the end of the method, returning `None`;
* the `"a digit"` branch and the final `else` only log and also fall off
  the end, returning `None`. -/
def parseExplainFuelP (gp : String → Except ParseExc V) :
    Nat → String → Except PyErr (Option V)
  | 0, _ => .error .outOfFuel
  | n + 1, v =>
    match gp v with
    | .ok hgvs => .ok (some hgvs)
    | .error exc =>
      match searchCharExpected exc.msg.data with
      | none => .error .typeErrorNotCallable
      | some (char_pos, expected_str) =>
        if expected_str = ("EOF") then
          match parseExplainFuelP gp n (pyTake char_pos v) with
          | .error e => .error e
          | .ok _ =>
            match parseExplainFuelP gp n (pyStrip (pyDrop (char_pos + 1) v)) with
            | .error e => .error e
            | .ok _ => .ok none
        else .ok none

/-- `Parser.parse(v, explain)`: with `explain` it defers to
`parse_hgvs_variant_explain` (fuel `pyLen v + 1` as above), otherwise it
returns `parse_hgvs_variant(v)`, whose `HGVSParseError` propagates. -/
def parse (gp : String → Except ParseExc V) (v : String) (explain : Bool) :
    Except PyErr (Option V) :=
  if explain then parseExplainFuelP gp (pyLen v + 1) v
  else
    match gp v with
    | .ok hgvs => .ok (some hgvs)
    | .error exc => .error (.hgvsError exc)

/-- Python `s.startswith(pre)`, over the character lists. -/
def strStarts (pre s : String) : Bool :=
  pre.data.isPrefixOf s.data

/-- Python `m.replace("rule_", "")`: delete every non-overlapping
occurrence of `rule_`, scanning left to right. -/
def stripRuleOccurrences : List Char → List Char
  | 'r' :: 'u' :: 'l' :: 'e' :: '_' :: rest => stripRuleOccurrences rest
  | c :: cs => c :: stripRuleOccurrences cs
  | [] => []

/-- The filter regex of `Parser._expose_rule_functions`,
`re.match(r"hgvs_(variant|position)|(c|g|m|n|p|r)_(edit|hgvs_position|interval|pos|posedit|variant)", name)`:
`re.match` anchors at the start only, so this tests whether one of the
alternatives is a *prefix* of the name. -/
def exposedRuleMatch (name : String) : Bool :=
  strStarts ("hgvs_variant") name || strStarts ("hgvs_position") name
    || ((["c", "g", "m", "n", "p", "r"]).any fun t =>
        ((["edit", "hgvs_position", "interval", "pos", "posedit", "variant"]).any
          fun k => strStarts (t ++ ("_") ++ k) name))

/-- The rule-name computation of `Parser._expose_rule_functions`: from the
grammar class's attribute names keep those starting with `rule_`, delete
every occurrence of `rule_` (Python `str.replace`), and, unless
`expose_all_rules`, keep only the names accepted by the filter regex. -/
def exposed_rules (methodNames : List String) (expose_all_rules : Bool) :
    List String :=
  let rules := (methodNames.filter (fun m => strStarts ("rule_") m)).map
    (fun m => String.mk (stripRuleOccurrences m.data))
  if expose_all_rules then rules else rules.filter exposedRuleMatch

end Parser

/-! ## Spec-side definitions and the engine contract -/

/-- The default production set as the claim words it: exactly the
whole-variant and whole-position rules plus the thirty-six names
`<t>_<k>` with `t` a variant-type letter and `k` a component kind
(a refinement definition following the spec text, to be compared with
`Parser.exposedRuleMatch`). -/
def canonicalRuleNames : List String :=
  [("hgvs_variant"), ("hgvs_position")]
    ++ ((["c", "g", "m", "n", "p", "r"]).flatMap fun t =>
        (["edit", "hgvs_position", "interval", "pos", "posedit", "variant"]).map
          fun k => t ++ ("_") ++ k)

/-- A single-quote character, kept out of string literals. -/
def squote : String := String.mk [Char.ofNat 39]

/-- Substring test over character lists (Python `in` on `str`). -/
def isInfixChars (pat : List Char) : List Char → Bool
  | [] => pat.isEmpty
  | c :: cs => pat.isPrefixOf (c :: cs) || isInfixChars pat cs

/-- The literal of the residue-type regex in `ParserExplainer._explain`:
`'c', 'g', 'm', 'n', 'p', or 'r` (the closing quote after `r` is absent in
the source).  The intended test was whether the failure message mentions
this token set. -/
def residueTokenPhrase : String :=
  squote ++ ("c") ++ squote ++ (", ") ++ squote ++ ("g") ++ squote ++ (", ") ++ squote ++ ("m")
    ++ squote ++ (", ") ++ squote ++ ("n") ++ squote ++ (", ") ++ squote ++ ("p") ++ squote
    ++ (", or ") ++ squote ++ ("r")

/-- The residue-type test as the spec intends it: the message mentions the
enumerated residue-type token set (a refinement definition; the source
instead passes the exception object itself to `re.search`, which raises
`TypeError`). -/
def mentionsResidueTokens (s : String) : Bool :=
  isInfixChars residueTokenPhrase.data s.data

/-- Modelled from the spec: the grammar engine
(`hgvs/generated/hgvs_grammar.py`, loaded by `Parser.__init__` but not
among the source files) reports every failure at a character offset into
the offending input — each classified failure position indexes a character
of the string, which is also the premise of the spec's termination
argument (each fragment excludes at least the separator character at the
failure offset). -/
def EngineReportsCharPositions {V : Type} (gp : String → Except ParseExc V) : Prop :=
  ∀ s exc p d, gp s = Except.error exc →
    searchCharExpected exc.msg.data = some (p, d) → p < pyLen s

mutual

/-- The `ExplanationNode` invariant of the spec, checked over the whole
tree: exactly one of `hgvs_obj` and `hgvs_parser_exc` is present, and
`parse_explain` is empty whenever `hgvs_obj` is present. -/
def wellFormedNode {V : Type} : HGVSExplained V → Bool
  | .mk _ obj exc _ kids =>
    ((obj.isSome && exc.isNone) || (obj.isNone && exc.isSome))
      && (obj.isNone || kids.isEmpty)
      && wellFormedList kids

/-- The invariant over a children list. -/
def wellFormedList {V : Type} : List (HGVSExplained V) → Bool
  | [] => true
  | k :: ks => wellFormedNode k && wellFormedList ks

end

/-! ## Concrete grammar oracles for the witnesses and counterexamples

Each oracle is a tiny stand-in for the grammar engine, failing on chosen
inputs with a chosen message and succeeding elsewhere. -/

/-- Oracle failing everywhere with an unstructured message. -/
def gpW1 : String → Except ParseExc Unit :=
  fun _ => .error ⟨("something went wrong")⟩

/-- Oracle failing on `AB CD` with an end-of-input-overrun message. -/
def gpW2 : String → Except ParseExc Unit :=
  fun s => if s = ("AB CD") then .error ⟨("AB CD: char 2: expected EOF")⟩ else .ok ()

/-- Oracle failing on `5X` at position 1 with a `one of .. or a digit`
description. -/
def gpW3 : String → Except ParseExc Unit :=
  fun s =>
    if s = ("5X") then .error ⟨("5X: char 1: expected one of B or a digit")⟩
    else .ok ()

/-- The failure message of `gpW4`: a residue-type expectation, the shape
the spec maps to `MissingResidueTypeKeyword`. -/
def msgW4 : String :=
  ("NM_1:x.2A>C: char 6: expected a ") ++ residueTokenPhrase ++ squote

/-- Oracle failing on `NM_1:x.2A>C` with the residue-type message. -/
def gpW4 : String → Except ParseExc Unit :=
  fun s => if s = ("NM_1:x.2A>C") then .error ⟨msgW4⟩ else .ok ()

/-- Oracle failing on `p.A12T` with a digit-expected message. -/
def gpW4d : String → Except ParseExc Unit :=
  fun s => if s = ("p.A12T") then .error ⟨("p.A12T: char 4: expected a digit")⟩ else .ok ()

/-- The dual-accession input of the C5 witness. -/
def vW5 : String := ("NM_0001, NP_0002x")

/-- The failure message of `gpW5`: ambiguous char-or-digit at the comma. -/
def msgW5 : String := ("NM_0001, NP_0002x: char 7: expected one of Q or a digit")

/-- Oracle failing on the dual-accession input and succeeding on each
accession. -/
def gpW5 : String → Except ParseExc Unit :=
  fun s => if s = vW5 then .error ⟨msgW5⟩ else .ok ()

/-- Oracle failing on `A B` with an end-of-input-overrun at position 1. -/
def gpW6 : String → Except ParseExc Unit :=
  fun s => if s = ("A B") then .error ⟨("A B: char 1: expected EOF")⟩ else .ok ()

/-- Oracle failing on the empty string with the structured message shape
ometa produces there (`char 0`, a production-specific description). -/
def gpW7 : String → Except ParseExc Unit :=
  fun s => if s = ("") then .error ⟨(": char 0: expected a letter")⟩ else .ok ()

/-- Oracle failing on `X Y` with an end-of-input-overrun at position 1. -/
def gpW10 : String → Except ParseExc Unit :=
  fun s => if s = ("X Y") then .error ⟨("X Y: char 1: expected EOF")⟩ else .ok ()

/-! ## Helper lemmas about the interpreter -/

namespace ParserExplainer

variable {V : Type}

theorem fuel_succ_ok {gp : String → Except ParseExc V} {n : Nat} {v : String}
    {val : V} (h : gp v = Except.ok val) :
    parseExplainFuel gp (n + 1) v = .ok (.mk v (some val) none none []) := by
  simp only [parseExplainFuel, h]

theorem fuel_succ_err {gp : String → Except ParseExc V} {n : Nat} {v : String}
    {exc : ParseExc} (h : gp v = Except.error exc) :
    parseExplainFuel gp (n + 1) v =
      match explainStep (parseExplainFuel gp n) v exc with
      | .error e => .error e
      | .ok lst => .ok (.mk v none (some exc) (some ("TBD")) lst) := by
  simp only [parseExplainFuel, h]

theorem orig_of_ok {gp : String → Except ParseExc V} {n : Nat} {v : String}
    {node : HGVSExplained V} (h : parseExplainFuel gp n v = Except.ok node) :
    node.orig_var_string = v := by
  cases n with
  | zero => simp [parseExplainFuel] at h
  | succ m =>
    cases hgp : gp v with
    | ok val =>
      rw [fuel_succ_ok hgp] at h
      injection h with h
      subst h
      rfl
    | error exc =>
      rw [fuel_succ_err hgp] at h
      cases hst : explainStep (parseExplainFuel gp m) v exc with
      | error e =>
        rw [hst] at h
        exact Except.noConfusion h
      | ok lst =>
        rw [hst] at h
        injection h with h
        subst h
        rfl

theorem step_nomatch {recur : String → Except PyErr (HGVSExplained V)}
    {v : String} {exc : ParseExc}
    (hs : searchCharExpected exc.msg.data = none) :
    explainStep recur v exc = .error .typeErrorNotCallable := by
  simp only [explainStep, hs]

theorem step_eof {recur : String → Except PyErr (HGVSExplained V)}
    {v : String} {exc : ParseExc} {p : Nat}
    (hs : searchCharExpected exc.msg.data = some (p, ("EOF"))) :
    explainStep recur v exc =
      match recur (pyTake p v) with
      | .error e => .error e
      | .ok r1 =>
        match recur (pyStrip (pyDrop (p + 1) v)) with
        | .error e => .error e
        | .ok r2 => .ok [r1, r2] := by
  simp only [explainStep, hs, if_pos]

theorem step_digit {recur : String → Except PyErr (HGVSExplained V)}
    {v : String} {exc : ParseExc} {p : Nat}
    (hs : searchCharExpected exc.msg.data = some (p, ("a digit"))) :
    explainStep recur v exc
      = .ok [.mk v none (some exc) (some ("looks like a p.")) []] := by
  simp only [explainStep, hs]
  rfl

theorem step_pos1 {recur : String → Except PyErr (HGVSExplained V)}
    {v : String} {exc : ParseExc} {d : String}
    (hs : searchCharExpected exc.msg.data = some (1, d))
    (hEOF : d ≠ ("EOF")) (hdig : d ≠ ("a digit")) :
    explainStep recur v exc
      = .ok [.mk v none (some exc) (some ("invalid char")) []] := by
  simp only [explainStep, hs, if_neg hEOF, if_neg hdig, if_pos]

theorem step_oneof_dual {recur : String → Except PyErr (HGVSExplained V)}
    {v : String} {exc : ParseExc} {p : Nat} {d coding protein : String}
    (hs : searchCharExpected exc.msg.data = some (p, d))
    (hEOF : d ≠ ("EOF")) (hdig : d ≠ ("a digit")) (hp : p ≠ 1)
    (hone : hasOneOfOrDigit d.data = true) (hidx : p < pyLen v)
    (hdual : dualAccessionSplit v.data = some (coding, protein)) :
    explainStep recur v exc =
      match recur coding with
      | .error e => .error e
      | .ok r1 =>
        match recur protein with
        | .error e => .error e
        | .ok r2 => .ok [r1, r2] := by
  simp only [explainStep, hs, if_neg hEOF, if_neg hdig, if_neg hp, hone,
    if_pos hidx, hdual, if_true]

theorem step_oneof_leaf {recur : String → Except PyErr (HGVSExplained V)}
    {v : String} {exc : ParseExc} {p : Nat} {d : String}
    (hs : searchCharExpected exc.msg.data = some (p, d))
    (hEOF : d ≠ ("EOF")) (hdig : d ≠ ("a digit")) (hp : p ≠ 1)
    (hone : hasOneOfOrDigit d.data = true) (hidx : p < pyLen v)
    (hdual : dualAccessionSplit v.data = none) :
    explainStep recur v exc
      = .ok [.mk v none (some exc) (some ("contains invalid char")) []] := by
  simp only [explainStep, hs, if_neg hEOF, if_neg hdig, if_neg hp, hone,
    if_pos hidx, hdual, if_true]

theorem step_oneof_idx {recur : String → Except PyErr (HGVSExplained V)}
    {v : String} {exc : ParseExc} {p : Nat} {d : String}
    (hs : searchCharExpected exc.msg.data = some (p, d))
    (hEOF : d ≠ ("EOF")) (hdig : d ≠ ("a digit")) (hp : p ≠ 1)
    (hone : hasOneOfOrDigit d.data = true) (hidx : ¬ p < pyLen v) :
    explainStep recur v exc = .error .indexError := by
  simp only [explainStep, hs, if_neg hEOF, if_neg hdig, if_neg hp, hone,
    if_neg hidx, if_true]

theorem step_else {recur : String → Except PyErr (HGVSExplained V)}
    {v : String} {exc : ParseExc} {p : Nat} {d : String}
    (hs : searchCharExpected exc.msg.data = some (p, d))
    (hEOF : d ≠ ("EOF")) (hdig : d ≠ ("a digit")) (hp : p ≠ 1)
    (hone : hasOneOfOrDigit d.data = false) :
    explainStep recur v exc = .error .typeErrorExpectedString := by
  simp only [explainStep, hs, if_neg hEOF, if_neg hdig, if_neg hp, hone]
  rfl

end ParserExplainer

namespace ParserExplainer

variable {V : Type}

theorem run_eof {gp : String → Except ParseExc V} {n : Nat} {v : String}
    {exc : ParseExc} {p : Nat} (hfail : gp v = Except.error exc)
    (hmatch : searchCharExpected exc.msg.data = some (p, ("EOF"))) :
    parseExplainFuel gp (n + 1) v =
      match parseExplainFuel gp n (pyTake p v) with
      | .error e => .error e
      | .ok r1 =>
        match parseExplainFuel gp n (pyStrip (pyDrop (p + 1) v)) with
        | .error e => .error e
        | .ok r2 => .ok (.mk v none (some exc) (some ("TBD")) [r1, r2]) := by
  rw [fuel_succ_err hfail, step_eof hmatch]
  cases parseExplainFuel gp n (pyTake p v) with
  | error e => rfl
  | ok r1 =>
    cases parseExplainFuel gp n (pyStrip (pyDrop (p + 1) v)) with
    | error e => rfl
    | ok r2 => rfl

theorem run_dual {gp : String → Except ParseExc V} {n : Nat} {v : String}
    {exc : ParseExc} {p : Nat} {d coding protein : String}
    (hfail : gp v = Except.error exc)
    (hmatch : searchCharExpected exc.msg.data = some (p, d))
    (hEOF : d ≠ ("EOF")) (hdig : d ≠ ("a digit")) (hp : p ≠ 1)
    (hone : hasOneOfOrDigit d.data = true) (hidx : p < pyLen v)
    (hdual : dualAccessionSplit v.data = some (coding, protein)) :
    parseExplainFuel gp (n + 1) v =
      match parseExplainFuel gp n coding with
      | .error e => .error e
      | .ok r1 =>
        match parseExplainFuel gp n protein with
        | .error e => .error e
        | .ok r2 => .ok (.mk v none (some exc) (some ("TBD")) [r1, r2]) := by
  rw [fuel_succ_err hfail, step_oneof_dual hmatch hEOF hdig hp hone hidx hdual]
  cases parseExplainFuel gp n coding with
  | error e => rfl
  | ok r1 =>
    cases parseExplainFuel gp n protein with
    | error e => rfl
    | ok r2 => rfl

end ParserExplainer

/-! ## The claims -/

/-- C1: the spec requires that a parse failure whose message does not
match the structured `char <position>: expected <description>` shape be
re-raised unchanged by `parse_hgvs_variant_explain`.  The code instead
executes `raise exc( msg )` in `ParserExplainer.raise_exc`: `exc` is an
exception instance, so the call raises `TypeError` and the original
failure object is replaced (its payload is dropped).  Evaluated here on a
concrete unstructured failure. -/
theorem c1_unstructured_failure_not_reraised :
    searchCharExpected (("something went wrong").data) = none ∧
    ParserExplainer.parse_hgvs_variant_explain gpW1 ("zzz")
      = .error .typeErrorNotCallable ∧
    PyErr.typeErrorNotCallable ≠ .hgvsError ⟨("something went wrong")⟩ := by
  refine ⟨by decide, by rfl, by decide⟩

/-- C2: a failure classified `EndOfInputOverrun` (description `EOF`) at
position `p` makes recovery attach exactly two children, in order: the
first explaining `v[0:p]` and the second explaining `v[p+1:]` with its
whitespace stripped — the character at the failure offset is dropped. -/
theorem c2_eof_split {V : Type} (gp : String → Except ParseExc V)
    (v : String) (exc : ParseExc) (p : Nat)
    (hfail : gp v = Except.error exc)
    (hmatch : searchCharExpected exc.msg.data = some (p, ("EOF")))
    (node : HGVSExplained V)
    (hok : ParserExplainer.parse_hgvs_variant_explain gp v = Except.ok node) :
    node.parse_explain.map HGVSExplained.orig_var_string
      = [pyTake p v, pyStrip (pyDrop (p + 1) v)] := by
  unfold ParserExplainer.parse_hgvs_variant_explain at hok
  rw [ParserExplainer.run_eof hfail hmatch] at hok
  split at hok
  · exact Except.noConfusion hok
  · split at hok
    · exact Except.noConfusion hok
    · rename_i x1 r1 h1 x2 r2 h2
      injection hok with hok
      subst hok
      simp only [HGVSExplained.parse_explain, List.map]
      rw [ParserExplainer.orig_of_ok h1, ParserExplainer.orig_of_ok h2]

/-- The failure of `gpW2` on `AB CD`. -/
def excW2 : ParseExc := ⟨("AB CD: char 2: expected EOF")⟩

/-- The explanation tree for `AB CD` under `gpW2`. -/
def nodeW2 : HGVSExplained Unit :=
  .mk ("AB CD") none (some excW2) (some ("TBD"))
    [.mk ("AB") (some ()) none none [], .mk ("CD") (some ()) none none []]

/-- Witness for C2 at the concrete run `AB CD`, splitting into `AB` and
`CD`. -/
theorem c2_eof_split_witness :
    nodeW2.parse_explain.map HGVSExplained.orig_var_string
      = [pyTake 2 ("AB CD"), pyStrip (pyDrop 3 ("AB CD"))] :=
  c2_eof_split gpW2 ("AB CD") excW2 2 (by rfl) (by decide) nodeW2 (by rfl)

/-- C4: a `DigitExpected` failure yields one child leaf and no recursion
(third conjunct, the digit-classified run of `gpW4d`), but the
`MissingResidueTypeKeyword` tier is broken: the branch guard passes the
exception object itself to `re.search`, which raises `TypeError`, so a
residue-type-classified failure crashes instead of producing the single
leaf the spec describes (second conjunct; the first conjunct checks that
the message of the failing run does mention the residue-type token set
the intended test was after). -/
theorem c4_residue_branch_type_error :
    mentionsResidueTokens msgW4 = true ∧
    ParserExplainer.parse_hgvs_variant_explain gpW4 ("NM_1:x.2A>C")
      = .error .typeErrorExpectedString ∧
    ParserExplainer.parse_hgvs_variant_explain gpW4d ("p.A12T")
      = .ok (.mk ("p.A12T") none (some ⟨("p.A12T: char 4: expected a digit")⟩)
          (some ("TBD"))
          [.mk ("p.A12T") none (some ⟨("p.A12T: char 4: expected a digit")⟩)
            (some ("looks like a p.")) []]) := by
  refine ⟨by decide, by rfl, by rfl⟩

/-- C7: on the empty string the explainer never recurses, but it does not
return a leaf failure node either: with the structured message the
grammar reports for empty input (offset `0`, a production-specific
description), the classifier falls through to the residue-type branch,
whose `re.search` on the exception object raises `TypeError`. -/
theorem c7_empty_string_type_error :
    searchCharExpected ((": char 0: expected a letter").data)
      = some (0, ("a letter")) ∧
    ParserExplainer.parse_hgvs_variant_explain gpW7 ("")
      = .error .typeErrorExpectedString := by
  refine ⟨by decide, by rfl⟩

/-- C3 (amended): the classification applied by `_explain`, first match
wins: description `EOF` selects the split recovery; description `a digit`
selects the protein-shorthand leaf; then a failure *position* equal to 1
selects the `invalid char` leaf regardless of the description (a rule the
spec's list omits); then a `one of .. or a digit` description selects the
ambiguous-character handling; every remaining description raises
`TypeError`, because the residue-type test searches the exception object
instead of its message — the `missing residue type` leaf and the
retained-description fallback leaf are unreachable. -/
theorem c3_classification_order {V : Type}
    (recur : String → Except PyErr (HGVSExplained V)) (v : String)
    (exc : ParseExc) (p : Nat) (d : String)
    (hmatch : searchCharExpected exc.msg.data = some (p, d)) :
    (d = ("EOF") → ∀ lst,
      ParserExplainer.explainStep recur v exc = Except.ok lst →
      ∃ r1 r2, recur (pyTake p v) = Except.ok r1 ∧
        recur (pyStrip (pyDrop (p + 1) v)) = Except.ok r2 ∧ lst = [r1, r2]) ∧
    (d = ("a digit") → ParserExplainer.explainStep recur v exc
      = .ok [.mk v none (some exc) (some ("looks like a p.")) []]) ∧
    (d ≠ ("EOF") → d ≠ ("a digit") → p = 1 →
      ParserExplainer.explainStep recur v exc
        = .ok [.mk v none (some exc) (some ("invalid char")) []]) ∧
    (d ≠ ("EOF") → d ≠ ("a digit") → p ≠ 1 → hasOneOfOrDigit d.data = true →
      p < pyLen v → dualAccessionSplit v.data = none →
      ParserExplainer.explainStep recur v exc
        = .ok [.mk v none (some exc) (some ("contains invalid char")) []]) ∧
    (d ≠ ("EOF") → d ≠ ("a digit") → p ≠ 1 → hasOneOfOrDigit d.data = false →
      ParserExplainer.explainStep recur v exc
        = .error .typeErrorExpectedString) := by
  refine ⟨?_, ?_, ?_, ?_, ?_⟩
  · intro h lst hst
    subst h
    rw [ParserExplainer.step_eof hmatch] at hst
    split at hst
    · exact Except.noConfusion hst
    · split at hst
      · exact Except.noConfusion hst
      · rename_i x1 r1 h1 x2 r2 h2
        injection hst with hst
        exact ⟨r1, r2, h1, h2, hst.symm⟩
  · intro h
    subst h
    exact ParserExplainer.step_digit hmatch
  · intro h1 h2 h3
    subst h3
    exact ParserExplainer.step_pos1 hmatch h1 h2
  · intro h1 h2 h3 h4 h5 h6
    exact ParserExplainer.step_oneof_leaf hmatch h1 h2 h3 h4 h5 h6
  · intro h1 h2 h3 h4
    exact ParserExplainer.step_else hmatch h1 h2 h3 h4

/-- Counterexample to C3 as stated: the description
`one of B or a digit` matches the claimed rule 3 pattern (and not rules 1
or 2), yet the failure at position 1 is handled by the position-based
rule — the single child leaf carries error type `invalid char`, not the
`contains invalid char` annotation of the ambiguous-character handling
(the input has no dual-accession shape, so rule 3 would have produced the
latter). -/
theorem c3_position_rule_intervenes :
    hasOneOfOrDigit (("one of B or a digit").data) = true ∧
    dualAccessionSplit (("5X").data) = none ∧
    (ParserExplainer.parse_hgvs_variant_explain gpW3 ("5X")).map
        (fun nd => nd.parse_explain.map HGVSExplained.hgvs_error_type)
      = .ok [some ("invalid char")] ∧
    some ("invalid char") ≠ some ("contains invalid char") := by
  refine ⟨by decide, by decide, by rfl, by decide⟩

/-- Witness for C3 at a concrete classified failure: position 1 with a
`one of .. or a digit` description yields the `invalid char` leaf. -/
theorem c3_classification_witness :
    ParserExplainer.explainStep
        (fun _ => (Except.error PyErr.outOfFuel : Except PyErr (HGVSExplained Unit)))
        ("5X") ⟨("5X: char 1: expected one of B or a digit")⟩
      = .ok [.mk ("5X") none (some ⟨("5X: char 1: expected one of B or a digit")⟩)
          (some ("invalid char")) []] :=
  (c3_classification_order _ ("5X") _ 1 ("one of B or a digit")
      (by decide)).2.2.1 (by decide) (by decide) rfl

/-- C5: a failure classified ambiguous-char-or-digit (description
`one of .. or a digit`, position neither 1 nor past the end, description
not `EOF` or `a digit`): when the text has the dual-accession shape the
two accession substrings are explained recursively and attached as the
two children, in that order; otherwise a single `contains invalid char`
leaf with no children is attached. -/
theorem c5_ambiguous_recovery {V : Type} (gp : String → Except ParseExc V)
    (v : String) (exc : ParseExc) (p : Nat) (d : String)
    (hfail : gp v = Except.error exc)
    (hmatch : searchCharExpected exc.msg.data = some (p, d))
    (hEOF : d ≠ ("EOF")) (hdig : d ≠ ("a digit")) (hp : p ≠ 1)
    (hone : hasOneOfOrDigit d.data = true) (hidx : p < pyLen v) :
    (∀ coding protein, dualAccessionSplit v.data = some (coding, protein) →
      ∀ node, ParserExplainer.parse_hgvs_variant_explain gp v = Except.ok node →
        node.parse_explain.map HGVSExplained.orig_var_string
          = [coding, protein]) ∧
    (dualAccessionSplit v.data = none →
      ParserExplainer.parse_hgvs_variant_explain gp v
        = .ok (.mk v none (some exc) (some ("TBD"))
            [.mk v none (some exc) (some ("contains invalid char")) []])) := by
  constructor
  · intro coding protein hdual node hok
    unfold ParserExplainer.parse_hgvs_variant_explain at hok
    rw [ParserExplainer.run_dual hfail hmatch hEOF hdig hp hone hidx hdual] at hok
    split at hok
    · exact Except.noConfusion hok
    · split at hok
      · exact Except.noConfusion hok
      · rename_i x1 r1 h1 x2 r2 h2
        injection hok with hok
        subst hok
        simp only [HGVSExplained.parse_explain, List.map]
        rw [ParserExplainer.orig_of_ok h1, ParserExplainer.orig_of_ok h2]
  · intro hdual
    unfold ParserExplainer.parse_hgvs_variant_explain
    rw [ParserExplainer.fuel_succ_err hfail,
      ParserExplainer.step_oneof_leaf hmatch hEOF hdig hp hone hidx hdual]

/-- The failure of `gpW5` on the dual-accession input. -/
def excW5 : ParseExc := ⟨msgW5⟩

/-- The explanation tree for the dual-accession input under `gpW5`. -/
def nodeW5 : HGVSExplained Unit :=
  .mk vW5 none (some excW5) (some ("TBD"))
    [.mk ("NM_0001") (some ()) none none [],
      .mk ("NP_0002x") (some ()) none none []]

/-- Witness for C5 at the concrete dual-accession run. -/
theorem c5_ambiguous_recovery_witness :
    nodeW5.parse_explain.map HGVSExplained.orig_var_string
      = [("NM_0001"), ("NP_0002x")] :=
  (c5_ambiguous_recovery gpW5 vW5 excW5 7 ("one of Q or a digit") (by rfl)
      (by decide) (by decide) (by decide) (by decide) (by decide)
      (by decide)).1 ("NM_0001") ("NP_0002x") (by decide) nodeW5 (by rfl)

namespace ParserExplainer

variable {V : Type}

theorem step_children_wf {gp : String → Except ParseExc V} {m : Nat}
    (ih : ∀ (w : String) (node : HGVSExplained V),
      parseExplainFuel gp m w = Except.ok node → wellFormedNode node = true)
    {v : String} {exc : ParseExc} {lst : List (HGVSExplained V)}
    (hst : explainStep (parseExplainFuel gp m) v exc = Except.ok lst) :
    wellFormedList lst = true := by
  cases hs : searchCharExpected exc.msg.data with
  | none =>
    rw [step_nomatch hs] at hst
    exact Except.noConfusion hst
  | some pd =>
    obtain ⟨p, d⟩ := pd
    by_cases hEOF : d = ("EOF")
    · subst hEOF
      rw [step_eof hs] at hst
      split at hst
      · exact Except.noConfusion hst
      · split at hst
        · exact Except.noConfusion hst
        · rename_i x1 r1 h1 x2 r2 h2
          injection hst with hst
          subst hst
          simp [wellFormedList, ih _ _ h1, ih _ _ h2]
    · by_cases hdig : d = ("a digit")
      · subst hdig
        rw [step_digit hs] at hst
        injection hst with hst
        subst hst
        simp [wellFormedList, wellFormedNode]
      · by_cases hp : p = 1
        · subst hp
          rw [step_pos1 hs hEOF hdig] at hst
          injection hst with hst
          subst hst
          simp [wellFormedList, wellFormedNode]
        · by_cases hone : hasOneOfOrDigit d.data = true
          · by_cases hidx : p < pyLen v
            · cases hdual : dualAccessionSplit v.data with
              | none =>
                rw [step_oneof_leaf hs hEOF hdig hp hone hidx hdual] at hst
                injection hst with hst
                subst hst
                simp [wellFormedList, wellFormedNode]
              | some cp =>
                obtain ⟨coding, protein⟩ := cp
                rw [step_oneof_dual hs hEOF hdig hp hone hidx hdual] at hst
                split at hst
                · exact Except.noConfusion hst
                · split at hst
                  · exact Except.noConfusion hst
                  · rename_i x1 r1 h1 x2 r2 h2
                    injection hst with hst
                    subst hst
                    simp [wellFormedList, ih _ _ h1, ih _ _ h2]
            · rw [step_oneof_idx hs hEOF hdig hp hone hidx] at hst
              exact Except.noConfusion hst
          · rw [step_else hs hEOF hdig hp (by simpa using hone)] at hst
            exact Except.noConfusion hst

theorem wf_of_fuel (gp : String → Except ParseExc V) :
    ∀ (n : Nat) (v : String) (node : HGVSExplained V),
      parseExplainFuel gp n v = Except.ok node → wellFormedNode node = true := by
  intro n
  induction n with
  | zero =>
    intro v node h
    exact Except.noConfusion h
  | succ m ih =>
    intro v node h
    cases hgp : gp v with
    | ok val =>
      rw [fuel_succ_ok hgp] at h
      injection h with h
      subst h
      simp [wellFormedNode, wellFormedList]
    | error exc =>
      rw [fuel_succ_err hgp] at h
      cases hst : explainStep (parseExplainFuel gp m) v exc with
      | error e =>
        rw [hst] at h
        exact Except.noConfusion h
      | ok lst =>
        rw [hst] at h
        injection h with h
        subst h
        simp [wellFormedNode, step_children_wf ih hst]

end ParserExplainer

/-- C9: every node of a tree returned by `parse_hgvs_variant_explain` has
exactly one of `hgvs_obj` and `hgvs_parser_exc` set and has no children
when `hgvs_obj` is set; and a successful parse returns the leaf carrying
the parsed value with no children. -/
theorem c9_node_invariant {V : Type} (gp : String → Except ParseExc V)
    (v : String) (node : HGVSExplained V)
    (hok : ParserExplainer.parse_hgvs_variant_explain gp v = Except.ok node) :
    wellFormedNode node = true ∧
    (∀ val, gp v = Except.ok val → node = .mk v (some val) none none []) := by
  constructor
  · exact ParserExplainer.wf_of_fuel gp _ v node hok
  · intro val hval
    unfold ParserExplainer.parse_hgvs_variant_explain at hok
    rw [ParserExplainer.fuel_succ_ok hval] at hok
    injection hok with hok
    exact hok.symm

/-- Witness for C9 on the concrete tree grown from `AB CD`. -/
theorem c9_node_invariant_witness : wellFormedNode nodeW2 = true :=
  (c9_node_invariant gpW2 ("AB CD") nodeW2 (by rfl)).1

/-! ## Length facts used by the termination argument -/

theorem stripChars_length_le (l : List Char) :
    (stripChars l).length ≤ l.length := by
  unfold stripChars
  calc (((l.dropWhile isPySpace).reverse.dropWhile isPySpace).reverse).length
      = ((l.dropWhile isPySpace).reverse.dropWhile isPySpace).length :=
        List.length_reverse _
    _ ≤ (l.dropWhile isPySpace).reverse.length :=
        (List.dropWhile_sublist _).length_le
    _ = (l.dropWhile isPySpace).length := List.length_reverse _
    _ ≤ l.length := (List.dropWhile_sublist _).length_le

theorem pyLen_pyTake (n : Nat) (s : String) :
    pyLen (pyTake n s) = min n (pyLen s) := by
  simp [pyTake, pyLen]

theorem pyLen_pyDrop (n : Nat) (s : String) :
    pyLen (pyDrop n s) = pyLen s - n := by
  simp [pyDrop, pyLen]

theorem pyLen_pyStrip_le (s : String) : pyLen (pyStrip s) ≤ pyLen s :=
  stripChars_length_le s.data

theorem dualAccessionSplit_lengths {cs : List Char} {coding protein : String}
    (h : dualAccessionSplit cs = some (coding, protein)) :
    pyLen coding < cs.length ∧ pyLen protein < cs.length := by
  simp only [dualAccessionSplit] at h
  set after := cs.drop 2 with hafter
  set run := after.takeWhile (fun c => !(c == (','))) with hrundef
  set rest := after.drop run.length with hrestdef
  set rest2 := rest.drop 2 with hrest2def
  split_ifs at h with hNM hrun hcomma hNP
  injection h with h
  injection h with hcod hprot
  subst hcod
  subst hprot
  rw [Bool.and_eq_true] at hNP
  obtain ⟨hNPpre, hlen3b⟩ := hNP
  have hlen3 : 3 ≤ rest2.length := of_decide_eq_true hlen3b
  have hcs2 : 2 ≤ cs.length := by
    have h0 := List.IsPrefix.length_le (List.isPrefixOf_iff_prefix.mp hNM)
    simpa using h0
  have haftlen : after.length = cs.length - 2 := by
    rw [hafter, List.length_drop]
  have hrunle : run.length ≤ after.length := by
    rw [hrundef]
    exact (List.takeWhile_sublist _).length_le
  have hrestlen : rest.length = after.length - run.length := by
    rw [hrestdef, List.length_drop]
  have hrest2 : 2 ≤ rest.length := by
    have h0 := List.IsPrefix.length_le (List.isPrefixOf_iff_prefix.mp hcomma)
    simpa using h0
  have hrest2len : rest2.length = rest.length - 2 := by
    rw [hrest2def, List.length_drop]
  constructor
  · have hlc : pyLen (String.mk ((['N', 'M'] : List Char) ++ run))
        = 2 + run.length := by
      simp [pyLen]
      omega
    omega
  · have hlp : pyLen (String.mk rest2) = rest2.length := by
      simp [pyLen]
    omega

namespace ParserExplainer

variable {V : Type}

theorem step_no_outOfFuel {gp : String → Except ParseExc V} {m : Nat}
    (hc : EngineReportsCharPositions gp) {v : String} {exc : ParseExc}
    (hgp : gp v = Except.error exc) (hlen : pyLen v ≤ m)
    (ih : ∀ w, pyLen w < m →
      parseExplainFuel gp m w ≠ Except.error PyErr.outOfFuel) :
    explainStep (parseExplainFuel gp m) v exc
      ≠ Except.error PyErr.outOfFuel := by
  intro hst
  cases hs : searchCharExpected exc.msg.data with
  | none =>
    rw [step_nomatch hs] at hst
    injection hst with hst
    exact PyErr.noConfusion hst
  | some pd =>
    obtain ⟨p, d⟩ := pd
    by_cases hEOF : d = ("EOF")
    · subst hEOF
      have hplt : p < pyLen v := hc v exc p ("EOF") hgp hs
      have ht1 : pyLen (pyTake p v) < m := by
        rw [pyLen_pyTake]
        omega
      have ht2 : pyLen (pyStrip (pyDrop (p + 1) v)) < m := by
        have h1 := pyLen_pyStrip_le (pyDrop (p + 1) v)
        rw [pyLen_pyDrop] at h1
        omega
      rw [step_eof hs] at hst
      split at hst
      · rename_i e h1
        injection hst with hst
        subst hst
        exact ih _ ht1 h1
      · split at hst
        · rename_i x1 r1 h1 e h2
          injection hst with hst
          subst hst
          exact ih _ ht2 h2
        · exact Except.noConfusion hst
    · by_cases hdig : d = ("a digit")
      · subst hdig
        rw [step_digit hs] at hst
        exact Except.noConfusion hst
      · by_cases hp : p = 1
        · subst hp
          rw [step_pos1 hs hEOF hdig] at hst
          exact Except.noConfusion hst
        · by_cases hone : hasOneOfOrDigit d.data = true
          · by_cases hidx : p < pyLen v
            · cases hdual : dualAccessionSplit v.data with
              | none =>
                rw [step_oneof_leaf hs hEOF hdig hp hone hidx hdual] at hst
                exact Except.noConfusion hst
              | some cp =>
                obtain ⟨coding, protein⟩ := cp
                obtain ⟨hl1, hl2⟩ := dualAccessionSplit_lengths hdual
                have hv : pyLen v = v.data.length := rfl
                have hc1 : pyLen coding < m := by omega
                have hc2 : pyLen protein < m := by omega
                rw [step_oneof_dual hs hEOF hdig hp hone hidx hdual] at hst
                split at hst
                · rename_i e h1
                  injection hst with hst
                  subst hst
                  exact ih _ hc1 h1
                · split at hst
                  · rename_i x1 r1 h1 e h2
                    injection hst with hst
                    subst hst
                    exact ih _ hc2 h2
                  · exact Except.noConfusion hst
            · rw [step_oneof_idx hs hEOF hdig hp hone hidx] at hst
              injection hst with hst
              exact PyErr.noConfusion hst
          · rw [step_else hs hEOF hdig hp (by simpa using hone)] at hst
            injection hst with hst
            exact PyErr.noConfusion hst

theorem fuel_sufficient (gp : String → Except ParseExc V)
    (hc : EngineReportsCharPositions gp) :
    ∀ (n : Nat) (v : String), pyLen v < n →
      parseExplainFuel gp n v ≠ Except.error PyErr.outOfFuel := by
  intro n
  induction n with
  | zero =>
    intro v h
    exact absurd h (Nat.not_lt_zero _)
  | succ m ih =>
    intro v hlen hcontra
    cases hgp : gp v with
    | ok val =>
      rw [fuel_succ_ok hgp] at hcontra
      exact Except.noConfusion hcontra
    | error exc =>
      rw [fuel_succ_err hgp] at hcontra
      cases hst : explainStep (parseExplainFuel gp m) v exc with
      | ok lst =>
        rw [hst] at hcontra
        exact Except.noConfusion hcontra
      | error e =>
        rw [hst] at hcontra
        injection hcontra with hcontra
        subst hcontra
        exact step_no_outOfFuel hc hgp (by omega) ih hst

end ParserExplainer

/-- C6: under the engine contract that failure positions index a
character of the failing string, the explainer never exhausts a recursion
budget of one more than the input length — every fragment handed to a
recursive call in the two recursing branches (`EOF` split,
dual-accession split) is strictly shorter than its parent, so recursion
depth is bounded by the input length. -/
theorem c6_termination {V : Type} (gp : String → Except ParseExc V)
    (hc : EngineReportsCharPositions gp) :
    (∀ v : String, ParserExplainer.parse_hgvs_variant_explain gp v
      ≠ Except.error PyErr.outOfFuel) ∧
    (∀ (w : String) (exc : ParseExc) (p : Nat),
      gp w = Except.error exc →
      searchCharExpected exc.msg.data = some (p, ("EOF")) →
      pyLen (pyTake p w) < pyLen w ∧
        pyLen (pyStrip (pyDrop (p + 1) w)) < pyLen w) ∧
    (∀ (w coding protein : String),
      dualAccessionSplit w.data = some (coding, protein) →
      pyLen coding < pyLen w ∧ pyLen protein < pyLen w) := by
  refine ⟨?_, ?_, ?_⟩
  · intro v
    exact ParserExplainer.fuel_sufficient gp hc (pyLen v + 1) v (by omega)
  · intro w exc p hgp hs
    have hplt : p < pyLen w := hc w exc p ("EOF") hgp hs
    constructor
    · rw [pyLen_pyTake]
      omega
    · have h1 := pyLen_pyStrip_le (pyDrop (p + 1) w)
      rw [pyLen_pyDrop] at h1
      omega
  · intro w coding protein hdual
    obtain ⟨hl1, hl2⟩ := dualAccessionSplit_lengths hdual
    have hv : pyLen w = w.data.length := rfl
    omega

/-- The contract holds for the concrete oracle `gpW6`: its only failure
is on `A B`, reported at position 1 of a length-3 string. -/
theorem gpW6_contract : EngineReportsCharPositions gpW6 := by
  intro s exc p d hgp hs
  unfold gpW6 at hgp
  by_cases h : s = ("A B")
  · subst h
    rw [if_pos rfl] at hgp
    injection hgp with hgp
    subst hgp
    have hval : searchCharExpected ((("A B: char 1: expected EOF") : String).data)
        = some (1, ("EOF")) := by decide
    rw [hval] at hs
    injection hs with hs
    injection hs with hp hd
    subst hp
    decide
  · rw [if_neg h] at hgp
    exact Except.noConfusion hgp

/-- Witness for C6: the recursive `A B` run terminates without running
out of fuel. -/
theorem c6_termination_witness :
    ParserExplainer.parse_hgvs_variant_explain gpW6 ("A B")
      ≠ Except.error PyErr.outOfFuel :=
  (c6_termination gpW6 gpW6_contract).1 ("A B")

/-- Every exactly-canonical rule name passes the prefix filter. -/
theorem canonical_names_pass_filter :
    ∀ r ∈ canonicalRuleNames, Parser.exposedRuleMatch r = true := by
  decide

/-- C8 (amended): the default-exposed rule set is the prefix-regex filter
of the fully-exposed set — hence a subset of it — and it contains every
rule whose name is exactly one of the canonical production names.  (As
stated the claim is refuted by `c8_prefix_match_counterexample`: the
filter accepts any name that merely *starts* with a canonical name,
because `re.match` is not anchored at the end.) -/
theorem c8_rule_exposure (methodNames : List String) :
    (∀ r, r ∈ Parser.exposed_rules methodNames false →
      r ∈ Parser.exposed_rules methodNames true) ∧
    Parser.exposed_rules methodNames false
      = (Parser.exposed_rules methodNames true).filter Parser.exposedRuleMatch ∧
    (∀ r, r ∈ canonicalRuleNames → r ∈ Parser.exposed_rules methodNames true →
      r ∈ Parser.exposed_rules methodNames false) := by
  refine ⟨?_, rfl, ?_⟩
  · intro r hr
    exact List.mem_of_mem_filter hr
  · intro r hcan hr
    exact List.mem_filter.mpr ⟨hr, canonical_names_pass_filter r hcan⟩

/-- Counterexample to C8 as stated: a grammar rule named `c_post` is
exposed by default (the filter regex matches the prefix `c_pos`), yet no
canonical production is named `c_post` — the default set is not exactly
the canonical set. -/
theorem c8_prefix_match_counterexample :
    Parser.exposed_rules [("rule_c_post")] false = [("c_post")] ∧
    ("c_post") ∉ canonicalRuleNames := by
  refine ⟨by rfl, by decide⟩

/-- Witness for C8 on a concrete grammar attribute list. -/
theorem c8_rule_exposure_witness :
    ("c_pos") ∈ Parser.exposed_rules
      [("rule_hgvs_variant"), ("rule_c_pos"), ("rule_foo")] false :=
  (c8_rule_exposure [("rule_hgvs_variant"), ("rule_c_pos"), ("rule_foo")]).2.2
    ("c_pos") (by decide) (by decide)

namespace Parser

variable {V : Type}

theorem fuelP_succ_ok {gp : String → Except ParseExc V} {n : Nat}
    {v : String} {val : V} (h : gp v = Except.ok val) :
    parseExplainFuelP gp (n + 1) v = .ok (some val) := by
  simp only [parseExplainFuelP, h]

theorem fuelP_succ_err {gp : String → Except ParseExc V} {n : Nat}
    {v : String} {exc : ParseExc} (h : gp v = Except.error exc) :
    parseExplainFuelP gp (n + 1) v =
      match searchCharExpected exc.msg.data with
      | none => .error .typeErrorNotCallable
      | some (char_pos, expected_str) =>
        if expected_str = ("EOF") then
          match parseExplainFuelP gp n (pyTake char_pos v) with
          | .error e => .error e
          | .ok _ =>
            match parseExplainFuelP gp n (pyStrip (pyDrop (char_pos + 1) v)) with
            | .error e => .error e
            | .ok _ => .ok none
        else .ok none := by
  simp only [parseExplainFuelP, h]

end Parser

/-- C10: whenever the grammar fails on `v` with a message matching the
structured shape and `Parser.parse(v, explain=True)` returns at all (the
handled branches only print and fall off the end of
`Parser.parse_hgvs_variant_explain`), the returned value is `None` —
no explanation object is produced. -/
theorem c10_explain_returns_none {V : Type} (gp : String → Except ParseExc V)
    (v : String) (exc : ParseExc) (r : Option V)
    (hfail : gp v = Except.error exc)
    (hmatch : searchCharExpected exc.msg.data ≠ none)
    (hok : Parser.parse gp v true = Except.ok r) :
    r = none := by
  unfold Parser.parse at hok
  rw [if_pos rfl] at hok
  cases hs : searchCharExpected exc.msg.data with
  | none => exact absurd hs hmatch
  | some pd =>
    obtain ⟨p, d⟩ := pd
    by_cases hEOF : d = ("EOF")
    · subst hEOF
      have hrun : Parser.parseExplainFuelP gp (pyLen v + 1) v =
          match Parser.parseExplainFuelP gp (pyLen v) (pyTake p v) with
          | .error e => .error e
          | .ok _ =>
            match Parser.parseExplainFuelP gp (pyLen v)
                (pyStrip (pyDrop (p + 1) v)) with
            | .error e => .error e
            | .ok _ => .ok none := by
        rw [Parser.fuelP_succ_err hfail, hs]
        rfl
      rw [hrun] at hok
      split at hok
      · exact Except.noConfusion hok
      · split at hok
        · exact Except.noConfusion hok
        · injection hok with hok
          exact hok.symm
    · have hrun : Parser.parseExplainFuelP gp (pyLen v + 1) v = .ok none := by
        rw [Parser.fuelP_succ_err hfail, hs]
        exact if_neg hEOF
      rw [hrun] at hok
      injection hok with hok
      exact hok.symm

/-- Witness for C10 at the concrete run `X Y`: the structured `EOF`
failure is handled, both halves are re-parsed, and the call returns
`None`. -/
theorem c10_explain_returns_none_witness :
    (none : Option Unit) = none ∧
    Parser.parse gpW10 ("X Y") true = .ok none :=
  ⟨c10_explain_returns_none gpW10 ("X Y") ⟨("X Y: char 1: expected EOF")⟩
      none (by rfl) (by decide) (by rfl),
    by rfl⟩
